import Mathlib

/-!
# Verification of the identity-reconciliation service

Shallow embedding of the contact store (`DatabaseManager`) and the
reconciliation engine (`ContactService`) of the identity-reconciliation
repository.  SQLite rows become a `Contact` structure, the database becomes a
`Store` carrying the table, the AUTOINCREMENT counter and the current value of
`CURRENT_TIMESTAMP`; every service method becomes a pure state-passing
function.  JavaScript `null` is modelled as `Option.none`; JavaScript
truthiness on strings (where the empty string is falsy) is `truthy`.
Thrown errors (`CustomError` for the phone-format rejection, and the JS
`TypeError` raised when a missing record is dereferenced) are modelled with
`Except`.
-/

namespace IdentityRecon

/-- The `linkPrecedence` column: CHECK(linkPrecedence IN ('primary','secondary')). -/
inductive Precedence where
  | primary
  | secondary
deriving DecidableEq, Repr

/-- One row of the `Contact` table (DatabaseManager.createTables). -/
structure Contact where
  id : Nat
  phoneNumber : Option String
  email : Option String
  linkedId : Option Nat
  linkPrecedence : Precedence
  createdAt : Nat
  updatedAt : Nat
  deletedAt : Option Nat
deriving DecidableEq, Repr

/-- The SQLite database: the `Contact` table in rowid order, the
AUTOINCREMENT counter, and the current `CURRENT_TIMESTAMP` value. -/
structure Store where
  contacts : List Contact
  nextId : Nat
  now : Nat
deriving DecidableEq, Repr

/-- The consolidated response assembled by `ContactService.buildResponse`
(and by `createNewPrimaryContact`). -/
structure ConsolidatedView where
  primaryContactId : Option Nat
  emails : List String
  phoneNumbers : List String
  secondaryContactIds : List Nat
deriving DecidableEq, Repr

/-- Errors thrown by the service: `invalidPhone` is the
`CustomError('Invalid phone number format', 400, 'INVALID_PHONE_NUMBER')`
(the spec's `ValidationError`); `typeError` is the JavaScript `TypeError`
raised when `undefined` is dereferenced. -/
inductive SvcError where
  | invalidPhone
  | typeError
deriving DecidableEq, Repr

/-- JavaScript truthiness of a nullable string: `null` and `""` are falsy. -/
def truthy : Option String → Bool
  | none => false
  | some s => !(s == "")

/-- Models the regex test `/^\d{10}$/.test(phoneNumber)` in `ContactService.identifyContact`. -/
def validPhone (s : String) : Bool :=
  s.length == 10 && s.data.all Char.isDigit

/-- Models the filter `deletedAt IS NULL`. -/
def live (c : Contact) : Bool :=
  c.deletedAt == none

/-- The WHERE clause of `findContactsByEmailOrPhone`: a condition
`email = ?` (resp. `phoneNumber = ?`) is added only when the corresponding
argument is truthy, and SQL equality never matches a NULL column. -/
def matchesQuery (email phoneNumber : Option String) (c : Contact) : Bool :=
  (truthy email && c.email == email) || (truthy phoneNumber && c.phoneNumber == phoneNumber)

/-- Models `ORDER BY createdAt ASC`.  `CURRENT_TIMESTAMP` ties are returned by the
storage engine in rowid order, so the order is modelled as lexicographic in
`(createdAt, id)`. -/
def rCreated (a b : Contact) : Prop :=
  a.createdAt < b.createdAt ∨ (a.createdAt = b.createdAt ∧ a.id ≤ b.id)

instance : DecidableRel rCreated := fun a b => by
  unfold rCreated; infer_instance

instance : IsTotal Contact rCreated :=
  ⟨fun a b => by unfold rCreated; omega⟩

instance : IsTrans Contact rCreated :=
  ⟨fun a b c hab hbc => by unfold rCreated at *; omega⟩

/-- Models `DatabaseManager.findContactsByEmailOrPhone`: rows matching either
provided value, excluding tombstoned rows, ordered by `createdAt` ascending. -/
def findContactsByEmailOrPhone (st : Store) (email phoneNumber : Option String) :
    List Contact :=
  List.insertionSort rCreated
    (st.contacts.filter (fun c => live c && matchesQuery email phoneNumber c))

/-- Models `DatabaseManager.createContact`: INSERT with server-assigned id and
timestamps; the email/phone arguments are bound verbatim (an empty string is
stored as the empty string). -/
def createContact (st : Store) (email phoneNumber : Option String)
    (linkedId : Option Nat) (linkPrecedence : Precedence) : Contact × Store :=
  let c : Contact :=
    { id := st.nextId, phoneNumber := phoneNumber, email := email,
      linkedId := linkedId, linkPrecedence := linkPrecedence,
      createdAt := st.now, updatedAt := st.now, deletedAt := none }
  (c, { st with contacts := st.contacts ++ [c], nextId := st.nextId + 1 })

/-- Models `DatabaseManager.updateContactLink`: UPDATE of `linkedId`,
`linkPrecedence` and `updatedAt` on the row with the given id. -/
def updateContactLink (st : Store) (contactId : Nat) (linkedId : Option Nat)
    (linkPrecedence : Precedence) : Store :=
  { st with
    contacts := st.contacts.map (fun c =>
      if c.id == contactId then
        { c with linkedId := linkedId, linkPrecedence := linkPrecedence,
                 updatedAt := st.now }
      else c) }

/-- Models `ORDER BY linkPrecedence DESC, createdAt ASC`: the string
`'secondary'` sorts above `'primary'` in SQLite's binary collation, so
DESC puts secondaries first; ties again in rowid order. -/
def rGroup (a b : Contact) : Prop :=
  (a.linkPrecedence = Precedence.secondary ∧ b.linkPrecedence = Precedence.primary) ∨
    (a.linkPrecedence = b.linkPrecedence ∧ rCreated a b)

instance : DecidableRel rGroup := fun a b => by
  unfold rGroup; exact instDecidableOr

instance : IsTotal Contact rGroup := by
  constructor
  intro a b
  unfold rGroup
  rcases ha : a.linkPrecedence <;> rcases hb : b.linkPrecedence <;>
    rcases IsTotal.total (r := rCreated) a b with h | h <;> simp [ha, hb, h]

instance : IsTrans Contact rGroup := by
  constructor
  intro a b c hab hbc
  unfold rGroup at *
  rcases hab with ⟨h1, h2⟩ | ⟨h1, h2⟩ <;> rcases hbc with ⟨h3, h4⟩ | ⟨h3, h4⟩
  · rw [h2] at h3; cases h3
  · exact Or.inl ⟨h1, h3 ▸ h2⟩
  · exact Or.inl ⟨h1 ▸ h3, h4⟩
  · exact Or.inr ⟨h1.trans h3, Trans.trans h2 h4⟩

/-- Models `DatabaseManager.getLinkedContacts`: all live rows with
`id = primaryId OR linkedId = primaryId`.  An SQL comparison with a NULL
parameter matches nothing. -/
def getLinkedContacts (st : Store) (primaryId : Option Nat) : List Contact :=
  match primaryId with
  | none => []
  | some i =>
      List.insertionSort rGroup
        (st.contacts.filter (fun c => live c && (c.id == i || c.linkedId == some i)))

/-- Models `.map(c => c.email).filter(Boolean)`: drop `null` and `""`. -/
def truthyVals (l : List (Option String)) : List String :=
  (l.filterMap id).filter (fun s => !(s == ""))

/-- Models `[...new Set(xs)]`: a JS `Set` keeps the first occurrence of each value
in insertion order, comparing by exact string equality. -/
def dedupFirst (l : List String) : List String :=
  l.foldl (fun acc x => if acc.contains x then acc else acc ++ [x]) []

instance {ε α : Type} [DecidableEq ε] [DecidableEq α] : DecidableEq (Except ε α) := fun x y =>
  match x, y with
  | Except.error a, Except.error b =>
      if h : a = b then Decidable.isTrue (by rw [h])
      else Decidable.isFalse (by intro hh; cases hh; exact h rfl)
  | Except.ok a, Except.ok b =>
      if h : a = b then Decidable.isTrue (by rw [h])
      else Decidable.isFalse (by intro hh; cases hh; exact h rfl)
  | Except.error _, Except.ok _ => Decidable.isFalse (by intro hh; cases hh)
  | Except.ok _, Except.error _ => Decidable.isFalse (by intro hh; cases hh)

/-- Models `ContactService.buildResponse`. -/
def buildResponse (st : Store) (primaryContactId : Option Nat) : ConsolidatedView :=
  let linkedContacts := getLinkedContacts st primaryContactId
  { primaryContactId := primaryContactId
    emails := dedupFirst (truthyVals (linkedContacts.map (·.email)))
    phoneNumbers := dedupFirst (truthyVals (linkedContacts.map (·.phoneNumber)))
    secondaryContactIds :=
      (linkedContacts.filter (fun c => c.linkPrecedence == Precedence.secondary)).map (·.id) }

/-- Models `ContactService.createNewPrimaryContact`. -/
def createNewPrimaryContact (email phoneNumber : Option String) (st : Store) :
    ConsolidatedView × Store :=
  let r := createContact st email phoneNumber none Precedence.primary
  ({ primaryContactId := some r.1.id
     emails := if truthy email then [email.getD ""] else []
     phoneNumbers := if truthy phoneNumber then [phoneNumber.getD ""] else []
     secondaryContactIds := [] }, r.2)

/-- Result of `ContactService.determineNewInfo`. -/
structure NeedsInfo where
  needsEmail : Bool
  needsPhone : Bool
deriving DecidableEq, Repr

/-- Models `ContactService.determineNewInfo`. -/
def determineNewInfo (existingContacts : List Contact) (email phoneNumber : Option String) :
    NeedsInfo :=
  let existingEmails := truthyVals (existingContacts.map (·.email))
  let existingPhones := truthyVals (existingContacts.map (·.phoneNumber))
  { needsEmail := truthy email && !(existingEmails.contains (email.getD ""))
    needsPhone := truthy phoneNumber && !(existingPhones.contains (phoneNumber.getD "")) }

/-- Models `ContactService.findPrimaryInChain`: looks for the linked primary only
inside `allContacts` (the match set), returning `none` (JS `undefined`) when
it is not there. -/
def findPrimaryInChain (contact : Contact) (allContacts : List Contact) : Option Contact :=
  if contact.linkPrecedence = Precedence.primary then
    some contact
  else
    allContacts.find? (fun c =>
      some c.id == contact.linkedId && c.linkPrecedence == Precedence.primary)

/-- The consolidation plan produced by `ContactService.analyzeContacts`. -/
inductive Plan where
  | returnExisting (primaryContact : Option Contact)
  | mergePrimaries (primaryContacts secondaryContacts : List Contact)
  | createSecondary (primaryContact : Contact) (needs : NeedsInfo)
  | linkToExistingPrimary (primaryId : Option Nat) (needs : NeedsInfo)
  | createNewPrimary
deriving DecidableEq, Repr

/-- The branches of `analyzeContacts` after the exact-duplicate test. -/
def analyzeRest (primaryContacts secondaryContacts existingContacts : List Contact)
    (email phoneNumber : Option String) : Plan :=
  match primaryContacts with
  | p1 :: p2 :: rest =>
      Plan.mergePrimaries (p1 :: p2 :: rest) secondaryContacts
  | [p] =>
      Plan.createSecondary p (determineNewInfo existingContacts email phoneNumber)
  | [] =>
      match secondaryContacts with
      | s :: _ =>
          Plan.linkToExistingPrimary s.linkedId
            (determineNewInfo existingContacts email phoneNumber)
      | [] => Plan.createNewPrimary

/-- Models `ContactService.analyzeContacts`.  `find(c => c.email === email)` uses
strict equality, under which `null === null` holds, so a `none` observation
can "exactly match" a row whose column is NULL. -/
def analyzeContacts (existingContacts : List Contact) (email phoneNumber : Option String) :
    Plan :=
  let primaryContacts := existingContacts.filter
    (fun c => c.linkPrecedence == Precedence.primary)
  let secondaryContacts := existingContacts.filter
    (fun c => c.linkPrecedence == Precedence.secondary)
  let exactEmailMatch := existingContacts.find? (fun c => c.email == email)
  let exactPhoneMatch := existingContacts.find? (fun c => c.phoneNumber == phoneNumber)
  match exactEmailMatch, exactPhoneMatch with
  | some em, some pm =>
      if em.id == pm.id then
        Plan.returnExisting (findPrimaryInChain em existingContacts)
      else
        analyzeRest primaryContacts secondaryContacts existingContacts email phoneNumber
  | _, _ =>
      analyzeRest primaryContacts secondaryContacts existingContacts email phoneNumber

/-- The `reduce` in `mergePrimaryContacts`: keep the accumulator unless the
current contact was created strictly earlier. -/
def oldestPrimary : Contact → List Contact → Contact
  | acc, [] => acc
  | acc, c :: rest => oldestPrimary (if c.createdAt < acc.createdAt then c else acc) rest

/-- First loop of `mergePrimaryContacts`: demote every colliding primary
other than the retained one. -/
def demoteOthers (primaryContacts : List Contact) (mainId : Nat) (st : Store) : Store :=
  primaryContacts.foldl
    (fun s q =>
      if q.id == mainId then s
      else updateContactLink s q.id (some mainId) Precedence.secondary) st

/-- Second loop of `mergePrimaryContacts`: repoint every matched secondary
that does not already point at the retained primary. -/
def repointSecondaries (secondaryContacts : List Contact) (mainId : Nat) (st : Store) : Store :=
  secondaryContacts.foldl
    (fun s q =>
      if q.linkedId == some mainId then s
      else updateContactLink s q.id (some mainId) Precedence.secondary) st

/-- Models `ContactService.mergePrimaryContacts`.  `reduce` on an empty array with
no initial value throws a `TypeError`. -/
def mergePrimaryContacts (primaryContacts secondaryContacts : List Contact)
    (email phoneNumber : Option String) (st : Store) :
    Except SvcError ConsolidatedView × Store :=
  match primaryContacts with
  | [] => (Except.error SvcError.typeError, st)
  | first :: rest =>
      let mainPrimary := oldestPrimary first rest
      let st1 := demoteOthers (first :: rest) mainPrimary.id st
      let st2 := repointSecondaries secondaryContacts mainPrimary.id st1
      let allContacts := (first :: rest) ++ secondaryContacts
      let needsNewInfo := determineNewInfo allContacts email phoneNumber
      let st3 :=
        if needsNewInfo.needsEmail || needsNewInfo.needsPhone then
          (createContact st2 (if needsNewInfo.needsEmail then email else none)
            (if needsNewInfo.needsPhone then phoneNumber else none)
            (some mainPrimary.id) Precedence.secondary).2
        else st2
      (Except.ok (buildResponse st3 (some mainPrimary.id)), st3)

/-- Models `ContactService.createSecondaryContact`. -/
def createSecondaryContact (primaryContact : Contact) (needsNewInfo : NeedsInfo)
    (email phoneNumber : Option String) (st : Store) :
    Except SvcError ConsolidatedView × Store :=
  let st1 :=
    if needsNewInfo.needsEmail || needsNewInfo.needsPhone then
      (createContact st (if needsNewInfo.needsEmail then email else none)
        (if needsNewInfo.needsPhone then phoneNumber else none)
        (some primaryContact.id) Precedence.secondary).2
    else st
  (Except.ok (buildResponse st1 (some primaryContact.id)), st1)

/-- Models `ContactService.linkToExistingPrimary`. -/
def linkToExistingPrimary (primaryId : Option Nat) (needsNewInfo : NeedsInfo)
    (email phoneNumber : Option String) (st : Store) :
    Except SvcError ConsolidatedView × Store :=
  let st1 :=
    if needsNewInfo.needsEmail || needsNewInfo.needsPhone then
      (createContact st (if needsNewInfo.needsEmail then email else none)
        (if needsNewInfo.needsPhone then phoneNumber else none)
        primaryId Precedence.secondary).2
    else st
  (Except.ok (buildResponse st1 primaryId), st1)

/-- Models `ContactService.executeConsolidation`.  In the `return_existing` branch
the JS code reads `plan.primaryContact.id`; when `findPrimaryInChain`
returned `undefined` this raises a `TypeError`. -/
def executeConsolidation (plan : Plan) (email phoneNumber : Option String) (st : Store) :
    Except SvcError ConsolidatedView × Store :=
  match plan with
  | Plan.returnExisting primaryContact =>
      match primaryContact with
      | none => (Except.error SvcError.typeError, st)
      | some c => (Except.ok (buildResponse st (some c.id)), st)
  | Plan.mergePrimaries prims secs =>
      mergePrimaryContacts prims secs email phoneNumber st
  | Plan.createSecondary p needs =>
      createSecondaryContact p needs email phoneNumber st
  | Plan.linkToExistingPrimary pid needs =>
      linkToExistingPrimary pid needs email phoneNumber st
  | Plan.createNewPrimary =>
      let r := createNewPrimaryContact email phoneNumber st
      (Except.ok r.1, r.2)

/-- Models `ContactService.identifyContact`: validate the phone format, query the
store, and either create a fresh primary or run the consolidation plan. -/
def identifyContact (email phoneNumber : Option String) (st : Store) :
    Except SvcError ConsolidatedView × Store :=
  if truthy phoneNumber && !validPhone (phoneNumber.getD "") then
    (Except.error SvcError.invalidPhone, st)
  else
    let existingContacts := findContactsByEmailOrPhone st email phoneNumber
    if existingContacts.isEmpty then
      let r := createNewPrimaryContact email phoneNumber st
      (Except.ok r.1, r.2)
    else
      executeConsolidation (analyzeContacts existingContacts email phoneNumber)
        email phoneNumber st

/-- The empty database right after `createTables` (AUTOINCREMENT starts
at 1). -/
def st0 : Store :=
  { contacts := [], nextId := 1, now := 0 }

/-- Advance `CURRENT_TIMESTAMP` between requests. -/
def bumpNow (st : Store) (t : Nat) : Store :=
  { st with now := t }

/-! Concrete request sequences used to evaluate the engine at the inputs
where its behavior diverges from the specified one. -/

/-- After `identify("a@x.com", null)`: primary 1. -/
def c2s1 : Store := bumpNow (identifyContact (some "a@x.com") none st0).2 1

/-- After `identify("b@x.com", "2222222222")`: second, unrelated primary 2. -/
def c2s2 : Store := bumpNow (identifyContact (some "b@x.com") (some "2222222222") c2s1).2 2

/-- After `identify("b@x.com", "3333333333")`: secondary 3 linked to
primary 2. -/
def c2s3 : Store := bumpNow (identifyContact (some "b@x.com") (some "3333333333") c2s2).2 3

/-- After `identify("a@x.com", "2222222222")`: primaries 1 and 2 collide and
are merged. -/
def c2s4 : Store := (identifyContact (some "a@x.com") (some "2222222222") c2s3).2

/-- After `identify("a@x.com", "5550001111")`: primary 1 holding both
fields. -/
def c3s1 : Store := bumpNow (identifyContact (some "a@x.com") (some "5550001111") st0).2 1

/-- After `identify("b@x.com", "5550001111")`: secondary 2 holding the new
email, linked to primary 1. -/
def c3s2 : Store := bumpNow (identifyContact (some "b@x.com") (some "5550001111") c3s1).2 2

/-- After `identify("e0@x.com", null)`: primary 1 with only an email. -/
def c6s1 : Store := bumpNow (identifyContact (some "e0@x.com") none st0).2 1

/-- After `identify("e0@x.com", "1234567890")`: secondary 2 holding only the
phone, linked to primary 1. -/
def c6s2 : Store := bumpNow (identifyContact (some "e0@x.com") (some "1234567890") c6s1).2 2

/-- The update applied by `updateContactLink(c, mainId, 'secondary')` during a
merge: link to the retained primary, demote, refresh `updatedAt`. -/
def applyLink (mainId now : Nat) (c : Contact) : Contact :=
  { c with linkedId := some mainId, linkPrecedence := Precedence.secondary, updatedAt := now }

/-- Row-level effect of the two merge loops combined: a row is rewritten iff
it is one of the colliding primaries other than the retained one, or one of
the matched secondaries not already pointing at the retained primary. -/
def mergedRow (prims secs : List Contact) (mainId now : Nat) (c : Contact) : Contact :=
  if prims.any (fun q => !(q.id == mainId) && q.id == c.id) ||
      secs.any (fun q => !(q.linkedId == some mainId) && q.id == c.id) then
    applyLink mainId now c
  else c

/-- Membership in the identity group rooted at primary `P`. -/
abbrev inGroup (P c : Contact) : Prop :=
  c.id = P.id ∨ c.linkedId = some P.id

/-- Shape invariants the code maintains on every store it builds: row ids
are unique, below the AUTOINCREMENT counter, and a primary row carries no
`linkedId`. -/
abbrev WFStore (st : Store) : Prop :=
  (st.contacts.map (fun c => c.id)).Nodup ∧
  (∀ c ∈ st.contacts, c.id < st.nextId) ∧
  (∀ c ∈ st.contacts, c.linkPrecedence = Precedence.primary → c.linkedId = none)

/-- Reachable stores never hold the same non-empty email (or phone) in two
rows: a value is only ever written when no matched row already carries it,
and the match query returns every row carrying it. -/
abbrev UniqueValues (l : List Contact) : Prop :=
  ∀ a ∈ l, ∀ b ∈ l,
    (a.email = b.email → truthy a.email = true → a = b) ∧
    (a.phoneNumber = b.phoneNumber → truthy a.phoneNumber = true → a = b)

/-- Concrete primary used by witness stores (older of a colliding pair). -/
def wP1 : Contact :=
  { id := 1, phoneNumber := none, email := some "w1@x.com", linkedId := none,
    linkPrecedence := Precedence.primary, createdAt := 0, updatedAt := 0, deletedAt := none }

/-- Concrete primary used by witness stores (newer of a colliding pair). -/
def wP2 : Contact :=
  { id := 2, phoneNumber := some "5555555555", email := none, linkedId := none,
    linkPrecedence := Precedence.primary, createdAt := 1, updatedAt := 1, deletedAt := none }

/-- Store with two unrelated primaries about to collide. -/
def stC1 : Store :=
  { contacts := [wP1, wP2], nextId := 3, now := 2 }

/-- Matched secondary pointing at the newer primary (must be repointed). -/
def wS3 : Contact :=
  { id := 3, phoneNumber := none, email := some "w1@x.com", linkedId := some 2,
    linkPrecedence := Precedence.secondary, createdAt := 2, updatedAt := 2, deletedAt := none }

/-- Matched secondary already pointing at the older primary (untouched). -/
def wS4 : Contact :=
  { id := 4, phoneNumber := some "5555555555", email := none, linkedId := some 1,
    linkPrecedence := Precedence.secondary, createdAt := 3, updatedAt := 3, deletedAt := none }

/-- Store whose match set for `("w1@x.com","5555555555")` holds two
primaries and two secondaries. -/
def stC10 : Store :=
  { contacts := [wP1, wP2, wS3, wS4], nextId := 5, now := 4 }

/-- Primary already holding both values observed by the C8 witness call. -/
def wC8 : Contact :=
  { id := 1, phoneNumber := some "5550001234", email := some "c8@x.com", linkedId := none,
    linkPrecedence := Precedence.primary, createdAt := 0, updatedAt := 0, deletedAt := none }

/-- Store with one primary already holding both observed values. -/
def stC8 : Store :=
  { contacts := [wC8], nextId := 2, now := 1 }

/-- The view created for a fresh observation, used as a witness. -/
def c9v : ConsolidatedView :=
  { primaryContactId := some 1, emails := ["w9@x.com"], phoneNumbers := [],
    secondaryContactIds := [] }

/-- The row created by that fresh observation. -/
def wC9 : Contact :=
  { id := 1, phoneNumber := none, email := some "w9@x.com", linkedId := none,
    linkPrecedence := Precedence.primary, createdAt := 0, updatedAt := 0, deletedAt := none }

/-- The store resulting from that fresh observation. -/
def c9st : Store :=
  { contacts := [wC9], nextId := 2, now := 0 }

/-- The row created by the C7 witness call. -/
def wC7 : Contact :=
  { id := 1, phoneNumber := some "1234567890", email := some "w7@x.com", linkedId := none,
    linkPrecedence := Precedence.primary, createdAt := 0, updatedAt := 0, deletedAt := none }

end IdentityRecon

namespace IdentityRecon

/-- C4: a provided phone that does not match the fixed ten-digit format makes
`identify` fail with the validation error before any store read or write, for
any email input and any prior store state; the returned store is exactly the
input store, so no row is created or updated. -/
theorem invalid_phone_rejected_without_mutation (st : Store) (email : Option String)
    (p : String) (hp : p ≠ "") (hbad : validPhone p = false) :
    identifyContact email (some p) st = (Except.error SvcError.invalidPhone, st) := by
  have ht : truthy (some p) = true := by
    simp [truthy, hp]
  simp [identifyContact, ht, hbad]

/-- Witness for C4: `identify(null, "abc")` on the empty store is rejected
with the validation error and the store is untouched. -/
theorem invalid_phone_rejected_without_mutation_witness :
    identifyContact none (some "abc") st0 = (Except.error SvcError.invalidPhone, st0) :=
  invalid_phone_rejected_without_mutation st0 none "abc" (by decide) (by decide)

/-- C2 fails on the code: after the merge performed by
`identify("a@x.com","2222222222")` — whose match set contained the two
primaries 1 and 2 — the pre-existing secondary 3 (created under primary 2 by
an earlier request, but absent from the match set) still has
`linkedId = 2`, and contact 2 is now a secondary; so a secondary points at a
secondary, and contact 3's phone number has dropped out of the consolidated
view of the merged group. -/
theorem merge_orphans_transitive_secondary :
    ((findContactsByEmailOrPhone c2s3 (some "a@x.com") (some "2222222222")).filter
        (fun c => c.linkPrecedence == Precedence.primary)).length = 2 ∧
    (∃ s ∈ c2s4.contacts, ∃ t ∈ c2s4.contacts,
        s.linkPrecedence = Precedence.secondary ∧
        t.linkPrecedence = Precedence.secondary ∧
        s.linkedId = some t.id) ∧
    (buildResponse c2s4 (some 1)).phoneNumbers = ["2222222222"] := by
  decide

/-- C3 fails on the code: `ORDER BY linkPrecedence DESC` sorts the string
`'secondary'` above `'primary'`, so the group fetch returns the secondary
before the primary and the consolidated view lists the secondary's email
before the primary's, where the claim requires primary-first order. -/
theorem group_fetch_orders_secondaries_first :
    (getLinkedContacts c3s2 (some 1)).map (·.id) = [2, 1] ∧
    (getLinkedContacts c3s2 (some 1)).map (·.linkPrecedence) =
      [Precedence.secondary, Precedence.primary] ∧
    (identifyContact (some "a@x.com") (some "5550001111") c3s2).1 =
      Except.ok { primaryContactId := some 1, emails := ["b@x.com", "a@x.com"],
                  phoneNumbers := ["5550001111"], secondaryContactIds := [2] } := by
  decide

/-- C5 fails on the code: `identify("", "1111111111")` and
`identify(null, "1111111111")` return the same view on the empty store, but
the first stores the empty string verbatim in the created row where the
claim requires a true null, so the resulting store states differ. -/
theorem empty_string_email_reaches_store :
    (identifyContact (some "") (some "1111111111") st0).1 =
      (identifyContact none (some "1111111111") st0).1 ∧
    (identifyContact (some "") (some "1111111111") st0).2.contacts.map (·.email) =
      [some ""] ∧
    (identifyContact none (some "1111111111") st0).2.contacts.map (·.email) = [none] ∧
    (identifyContact (some "") (some "1111111111") st0).2 ≠
      (identifyContact none (some "1111111111") st0).2 := by
  decide

/-- C6 fails on the code: secondary 2 holds only the phone, so
`identify(null, "1234567890")` matches it as an exact duplicate (strict
equality makes the null email observation match its NULL email column), but
its primary is not in the match set, `findPrimaryInChain` comes back empty,
and dereferencing it faults with a `TypeError` instead of returning the
consolidated view of the contact's primary. -/
theorem exact_duplicate_on_secondary_faults :
    (∃ s ∈ c6s2.contacts, s.linkPrecedence = Precedence.secondary ∧
        s.email = none ∧ s.phoneNumber = some "1234567890" ∧ s.linkedId = some 1) ∧
    (identifyContact none (some "1234567890") c6s2).1 = Except.error SvcError.typeError ∧
    (identifyContact none (some "1234567890") c6s2).2 = c6s2 := by
  decide

lemma truthy_some {s : String} (h : s ≠ "") : truthy (some s) = true := by
  simp [truthy, h]

lemma truthy_eq_true {o : Option String} (h : truthy o = true) :
    ∃ s, o = some s ∧ s ≠ "" := by
  cases o with
  | none => simp [truthy] at h
  | some s =>
      refine ⟨s, rfl, ?_⟩
      simpa [truthy] using h

lemma mem_findContacts {st : Store} {e p : Option String} {c : Contact} :
    c ∈ findContactsByEmailOrPhone st e p ↔
      c ∈ st.contacts ∧ live c = true ∧ matchesQuery e p c = true := by
  unfold findContactsByEmailOrPhone
  rw [List.mem_insertionSort, List.mem_filter]
  simp [Bool.and_eq_true, and_assoc]

lemma sorted_findContacts (st : Store) (e p : Option String) :
    List.Sorted rCreated (findContactsByEmailOrPhone st e p) :=
  List.sorted_insertionSort rCreated _

lemma nodup_findContacts {st : Store}
    (hids : (st.contacts.map (fun c => c.id)).Nodup) (e p : Option String) :
    (findContactsByEmailOrPhone st e p).Nodup := by
  unfold findContactsByEmailOrPhone
  exact (List.perm_insertionSort rCreated _).nodup_iff.mpr
    ((List.Nodup.of_map _ hids).filter _)

lemma row_eq_of_id_eq {st : Store}
    (hids : (st.contacts.map (fun c => c.id)).Nodup)
    {a b : Contact} (ha : a ∈ st.contacts) (hb : b ∈ st.contacts)
    (h : a.id = b.id) : a = b :=
  List.inj_on_of_nodup_map hids ha hb h

lemma nodup_dedupFirst_aux (l : List String) :
    ∀ acc : List String, acc.Nodup →
      (l.foldl (fun acc x => if acc.contains x then acc else acc ++ [x]) acc).Nodup := by
  induction l with
  | nil => intro acc h; simpa using h
  | cons x xs ih =>
      intro acc h
      simp only [List.foldl_cons]
      by_cases hx : x ∈ acc
      · simpa [hx] using ih acc h
      · have hnd : (acc ++ [x]).Nodup := by
          simp [List.nodup_append, h, hx]
        simpa [hx] using ih (acc ++ [x]) hnd

lemma nodup_dedupFirst (l : List String) : (dedupFirst l).Nodup :=
  nodup_dedupFirst_aux l [] List.nodup_nil

lemma nodup_buildResponse_emails (st : Store) (pid : Option Nat) :
    (buildResponse st pid).emails.Nodup :=
  nodup_dedupFirst _

lemma nodup_buildResponse_phones (st : Store) (pid : Option Nat) :
    (buildResponse st pid).phoneNumbers.Nodup :=
  nodup_dedupFirst _

lemma exec_ok_nodup (plan : Plan) (e p : Option String) (st : Store)
    (v : ConsolidatedView) (st2 : Store)
    (h : executeConsolidation plan e p st = (Except.ok v, st2)) :
    v.emails.Nodup ∧ v.phoneNumbers.Nodup := by
  cases plan with
  | returnExisting pc =>
      cases pc with
      | none => simp [executeConsolidation] at h
      | some c =>
          simp only [executeConsolidation] at h
          rw [Prod.mk.injEq] at h
          injection h.1 with h1
          subst h1
          exact ⟨nodup_buildResponse_emails _ _, nodup_buildResponse_phones _ _⟩
  | mergePrimaries prims secs =>
      cases prims with
      | nil => simp [executeConsolidation, mergePrimaryContacts] at h
      | cons a rest =>
          simp only [executeConsolidation, mergePrimaryContacts] at h
          rw [Prod.mk.injEq] at h
          injection h.1 with h1
          subst h1
          exact ⟨nodup_buildResponse_emails _ _, nodup_buildResponse_phones _ _⟩
  | createSecondary q needs =>
      simp only [executeConsolidation, createSecondaryContact] at h
      rw [Prod.mk.injEq] at h
      injection h.1 with h1
      subst h1
      exact ⟨nodup_buildResponse_emails _ _, nodup_buildResponse_phones _ _⟩
  | linkToExistingPrimary pid needs =>
      simp only [executeConsolidation, linkToExistingPrimary] at h
      rw [Prod.mk.injEq] at h
      injection h.1 with h1
      subst h1
      exact ⟨nodup_buildResponse_emails _ _, nodup_buildResponse_phones _ _⟩
  | createNewPrimary =>
      simp only [executeConsolidation, createNewPrimaryContact] at h
      rw [Prod.mk.injEq] at h
      injection h.1 with h1
      subst h1
      constructor <;> dsimp only <;> split <;> simp

/-- C9: every consolidated view `identify` returns has duplicate-free email
and phone lists; the only comparison applied anywhere is exact string
equality (no case or whitespace normalization exists in the model). -/
theorem consolidated_views_deduplicated (email phoneNumber : Option String) (st : Store)
    (v : ConsolidatedView) (st2 : Store)
    (h : identifyContact email phoneNumber st = (Except.ok v, st2)) :
    v.emails.Nodup ∧ v.phoneNumbers.Nodup := by
  simp only [identifyContact] at h
  by_cases hc : (truthy phoneNumber && !validPhone (phoneNumber.getD "")) = true
  · rw [if_pos hc] at h
    rw [Prod.mk.injEq] at h
    exact absurd h.1 (by intro hh; cases hh)
  · rw [if_neg hc] at h
    by_cases he : (findContactsByEmailOrPhone st email phoneNumber).isEmpty = true
    · rw [if_pos he] at h
      simp only [createNewPrimaryContact] at h
      rw [Prod.mk.injEq] at h
      injection h.1 with h1
      subst h1
      constructor <;> dsimp only <;> split <;> simp
    · rw [if_neg he] at h
      exact exec_ok_nodup _ _ _ _ _ _ h

/-- Witness for C9: the view returned for a fresh email observation has
duplicate-free lists. -/
theorem consolidated_views_deduplicated_witness :
    c9v.emails.Nodup ∧ c9v.phoneNumbers.Nodup :=
  consolidated_views_deduplicated (some "w9@x.com") none st0 c9v c9st (by decide)

/-- C7: with no prior matching contact in the store (and a well-formed
observation), `identify` appends exactly one new row — a primary with no
`linkedId` holding exactly the provided fields — and returns the view with
that row's id, only the provided email and phone, and no secondary ids. -/
theorem no_match_creates_single_primary (email phoneNumber : Option String) (st : Store)
    (hvp : truthy phoneNumber = true → validPhone (phoneNumber.getD "") = true)
    (hee : email ≠ some "") (hpp : phoneNumber ≠ some "")
    (hnm : ∀ c ∈ st.contacts, live c = true → matchesQuery email phoneNumber c = false) :
    identifyContact email phoneNumber st =
      (Except.ok { primaryContactId := some st.nextId,
                   emails := email.toList,
                   phoneNumbers := phoneNumber.toList,
                   secondaryContactIds := [] },
       { st with
         contacts := st.contacts ++
           [{ id := st.nextId, phoneNumber := phoneNumber, email := email,
              linkedId := none, linkPrecedence := Precedence.primary,
              createdAt := st.now, updatedAt := st.now, deletedAt := none }],
         nextId := st.nextId + 1 }) := by
  have hcond : (truthy phoneNumber && !validPhone (phoneNumber.getD "")) = false := by
    cases ht : truthy phoneNumber
    · simp
    · simp [hvp ht]
  have hfind : findContactsByEmailOrPhone st email phoneNumber = [] := by
    unfold findContactsByEmailOrPhone
    have hfil : st.contacts.filter
        (fun c => live c && matchesQuery email phoneNumber c) = [] := by
      rw [List.filter_eq_nil_iff]
      intro c hc
      cases hl : live c
      · simp
      · simp [hnm c hc hl]
    rw [hfil]
    rfl
  have hemail : (if truthy email = true then [email.getD ""] else []) = email.toList := by
    cases email with
    | none => simp [truthy]
    | some s =>
        have hs : s ≠ "" := by
          intro hh
          exact hee (by rw [hh])
        simp [truthy_some hs]
  have hphone :
      (if truthy phoneNumber = true then [phoneNumber.getD ""] else []) =
        phoneNumber.toList := by
    cases phoneNumber with
    | none => simp [truthy]
    | some s =>
        have hs : s ≠ "" := by
          intro hh
          exact hpp (by rw [hh])
        simp [truthy_some hs]
  simp only [identifyContact, hfind]
  rw [if_neg (by simp [hcond])]
  rw [if_pos (by rfl)]
  simp only [createNewPrimaryContact, createContact]
  rw [hemail, hphone]

/-- Witness for C7: a fresh observation on the empty store creates one
primary row holding both fields. -/
theorem no_match_creates_single_primary_witness :
    identifyContact (some "w7@x.com") (some "1234567890") st0 =
      (Except.ok { primaryContactId := some 1, emails := ["w7@x.com"],
                   phoneNumbers := ["1234567890"], secondaryContactIds := [] },
       { contacts := [wC7], nextId := 2, now := 0 }) := by
  have h := no_match_creates_single_primary (some "w7@x.com") (some "1234567890") st0
    (by decide) (by decide) (by decide) (by intro c hc; cases hc)
  simpa [st0, wC7] using h

lemma nil_or_singleton_of_all_eq {l : List Contact} (hnd : l.Nodup) {P : Contact}
    (hall : ∀ x ∈ l, x = P) : l = [] ∨ l = [P] := by
  cases l with
  | nil => exact Or.inl rfl
  | cons a t =>
      have ha : a = P := hall a (List.mem_cons_self a t)
      cases t with
      | nil => exact Or.inr (by rw [ha])
      | cons b u =>
          have hb : b = P := hall b (by simp)
          exfalso
          rcases List.nodup_cons.mp hnd with ⟨hna, -⟩
          exact hna (by rw [ha, ← hb]; simp)

lemma analyze_plan_cases (ex : List Contact) (e p : Option String) :
    (∃ pc, analyzeContacts ex e p = Plan.returnExisting pc) ∨
      analyzeContacts ex e p =
        analyzeRest (ex.filter (fun c => c.linkPrecedence == Precedence.primary))
          (ex.filter (fun c => c.linkPrecedence == Precedence.secondary)) ex e p := by
  rcases hem : ex.find? (fun c => c.email == e) with _ | em
  · right
    simp [analyzeContacts, hem]
  · rcases hpm : ex.find? (fun c => c.phoneNumber == p) with _ | pm
    · right
      simp [analyzeContacts, hem, hpm]
    · by_cases hid : (em.id == pm.id) = true
      · left
        exact ⟨findPrimaryInChain em ex, by simp [analyzeContacts, hem, hpm, hid]⟩
      · right
        simp [analyzeContacts, hem, hpm, hid]

lemma identify_eq_exec (e p : Option String) (st : Store)
    (hvp : truthy p = true → validPhone (p.getD "") = true)
    (hne : findContactsByEmailOrPhone st e p ≠ []) :
    identifyContact e p st =
      executeConsolidation (analyzeContacts (findContactsByEmailOrPhone st e p) e p)
        e p st := by
  have hcond : (truthy p && !validPhone (p.getD "")) = false := by
    cases ht : truthy p
    · simp
    · simp [hvp ht]
  simp only [identifyContact]
  rw [if_neg (by simp [hcond])]
  rw [if_neg (by simpa [List.isEmpty_iff] using hne)]

lemma determineNewInfo_false (ex : List Contact) (e p : Option String)
    (he : truthy e = true → ∃ c ∈ ex, c.email = e)
    (hp : truthy p = true → ∃ c ∈ ex, c.phoneNumber = p) :
    determineNewInfo ex e p = { needsEmail := false, needsPhone := false } := by
  have h1 : (truthy e &&
      !((truthyVals (ex.map (fun c => c.email))).contains (e.getD ""))) = false := by
    cases ht : truthy e
    · simp
    · obtain ⟨c, hc, hce⟩ := he ht
      obtain ⟨s, hs, hsne⟩ := truthy_eq_true ht
      have hmem : s ∈ truthyVals (ex.map (fun c => c.email)) := by
        unfold truthyVals
        rw [List.mem_filter, List.mem_filterMap]
        refine ⟨⟨c.email, List.mem_map_of_mem _ hc, by rw [hce, hs]; rfl⟩, by simpa using hsne⟩
      have hcont : ((truthyVals (ex.map (fun c => c.email))).contains (e.getD "")) = true := by
        rw [hs]
        simpa using hmem
      rw [hcont]
      rfl
  have h2 : (truthy p &&
      !((truthyVals (ex.map (fun c => c.phoneNumber))).contains (p.getD ""))) = false := by
    cases ht : truthy p
    · simp
    · obtain ⟨c, hc, hcp⟩ := hp ht
      obtain ⟨s, hs, hsne⟩ := truthy_eq_true ht
      have hmem : s ∈ truthyVals (ex.map (fun c => c.phoneNumber)) := by
        unfold truthyVals
        rw [List.mem_filter, List.mem_filterMap]
        refine ⟨⟨c.phoneNumber, List.mem_map_of_mem _ hc, by rw [hcp, hs]; rfl⟩,
          by simpa using hsne⟩
      have hcont : ((truthyVals (ex.map (fun c => c.phoneNumber))).contains (p.getD "")) = true := by
        rw [hs]
        simpa using hmem
      rw [hcont]
      rfl
  simp only [determineNewInfo]
  rw [h1, h2]

/-- C8: when every supplied value already occurs (live) inside the single
identity group rooted at `P`, and every match lies in that group, `identify`
writes nothing: the store after one call — and after calling twice with the
identical input — is the input store, so the group's member count cannot
change. -/
theorem identify_idempotent_when_no_new_info
    (email phoneNumber : Option String) (st : Store) (P : Contact)
    (hWF : WFStore st)
    (hvp : truthy phoneNumber = true → validPhone (phoneNumber.getD "") = true)
    (hsup : truthy email = true ∨ truthy phoneNumber = true)
    (hPmem : P ∈ st.contacts) (hPprim : P.linkPrecedence = Precedence.primary)
    (hmatch : ∀ c ∈ st.contacts, live c = true →
        matchesQuery email phoneNumber c = true → inGroup P c)
    (hocce : truthy email = true → ∃ c ∈ st.contacts, live c = true ∧ c.email = email)
    (hoccp : truthy phoneNumber = true →
        ∃ c ∈ st.contacts, live c = true ∧ c.phoneNumber = phoneNumber) :
    (identifyContact email phoneNumber st).2 = st ∧
      (identifyContact email phoneNumber ((identifyContact email phoneNumber st).2)).2 = st := by
  obtain ⟨hids, hbound, hprimnil⟩ := hWF
  have hne : findContactsByEmailOrPhone st email phoneNumber ≠ [] := by
    have hmem : ∃ c, c ∈ findContactsByEmailOrPhone st email phoneNumber := by
      rcases hsup with ht | ht
      · obtain ⟨c, hc, hlc, hce⟩ := hocce ht
        exact ⟨c, mem_findContacts.mpr ⟨hc, hlc, by simp [matchesQuery, ht, hce]⟩⟩
      · obtain ⟨c, hc, hlc, hcp⟩ := hoccp ht
        exact ⟨c, mem_findContacts.mpr ⟨hc, hlc, by simp [matchesQuery, ht, hcp]⟩⟩
    obtain ⟨c, hc⟩ := hmem
    intro hnil
    rw [hnil] at hc
    cases hc
  suffices h1 : (identifyContact email phoneNumber st).2 = st by
    refine ⟨h1, ?_⟩
    rw [h1, h1]
  rw [identify_eq_exec email phoneNumber st hvp hne]
  have hneeds : determineNewInfo (findContactsByEmailOrPhone st email phoneNumber)
      email phoneNumber = { needsEmail := false, needsPhone := false } := by
    apply determineNewInfo_false
    · intro ht
      obtain ⟨c, hc, hlc, hce⟩ := hocce ht
      exact ⟨c, mem_findContacts.mpr ⟨hc, hlc, by simp [matchesQuery, ht, hce]⟩, hce⟩
    · intro ht
      obtain ⟨c, hc, hlc, hcp⟩ := hoccp ht
      exact ⟨c, mem_findContacts.mpr ⟨hc, hlc, by simp [matchesQuery, ht, hcp]⟩, hcp⟩
  rcases analyze_plan_cases (findContactsByEmailOrPhone st email phoneNumber)
      email phoneNumber with ⟨pc, hpc⟩ | hrest
  · rw [hpc]
    cases pc <;> rfl
  · rw [hrest]
    have hexnd : (findContactsByEmailOrPhone st email phoneNumber).Nodup :=
      nodup_findContacts hids email phoneNumber
    have hallP : ∀ q ∈ (findContactsByEmailOrPhone st email phoneNumber).filter
        (fun c => c.linkPrecedence == Precedence.primary), q = P := by
      intro q hq
      rw [List.mem_filter] at hq
      obtain ⟨hqex, hqprim⟩ := hq
      have hqprim' : q.linkPrecedence = Precedence.primary := by simpa using hqprim
      obtain ⟨hqst, hqlive, hqmatch⟩ := mem_findContacts.mp hqex
      rcases hmatch q hqst hqlive hqmatch with hid | hlink
      · exact row_eq_of_id_eq hids hqst hPmem hid
      · rw [hprimnil q hqst hqprim'] at hlink
        exact Option.noConfusion hlink
    rcases nil_or_singleton_of_all_eq (hexnd.filter _) hallP with hnilp | hone
    · have hsne : (findContactsByEmailOrPhone st email phoneNumber).filter
          (fun c => c.linkPrecedence == Precedence.secondary) ≠ [] := by
        cases hexm : findContactsByEmailOrPhone st email phoneNumber with
        | nil => exact absurd hexm hne
        | cons a t =>
            have ha : a ∈ (a :: t) := List.mem_cons_self a t
            intro hfs
            cases hprec : a.linkPrecedence with
            | primary =>
                have hmemp : a ∈ (a :: t).filter
                    (fun c => c.linkPrecedence == Precedence.primary) :=
                  List.mem_filter.mpr ⟨ha, by simp [hprec]⟩
                rw [hexm] at hnilp
                rw [hnilp] at hmemp
                cases hmemp
            | secondary =>
                have hmems : a ∈ (a :: t).filter
                    (fun c => c.linkPrecedence == Precedence.secondary) :=
                  List.mem_filter.mpr ⟨ha, by simp [hprec]⟩
                rw [hfs] at hmems
                cases hmems
      cases hsec : (findContactsByEmailOrPhone st email phoneNumber).filter
          (fun c => c.linkPrecedence == Precedence.secondary) with
      | nil => exact absurd hsec hsne
      | cons s rest =>
          rw [hnilp]
          simp only [analyzeRest]
          rw [hneeds]
          simp [executeConsolidation, linkToExistingPrimary]
    · rw [hone]
      simp only [analyzeRest]
      rw [hneeds]
      simp [executeConsolidation, createSecondaryContact]

/-- Witness for C8: re-observing the exact values of an existing one-member
group twice leaves the store untouched both times. -/
theorem identify_idempotent_when_no_new_info_witness :
    (identifyContact (some "c8@x.com") (some "5550001234") stC8).2 = stC8 ∧
      (identifyContact (some "c8@x.com") (some "5550001234")
          ((identifyContact (some "c8@x.com") (some "5550001234") stC8).2)).2 = stC8 :=
  identify_idempotent_when_no_new_info (some "c8@x.com") (some "5550001234") stC8 wC8
    (by decide) (by decide) (by decide) (by decide) (by decide)
    (by decide) (by decide) (by decide)

lemma mergedRow_id (prims secs : List Contact) (mainId now : Nat) (c : Contact) :
    (mergedRow prims secs mainId now c).id = c.id := by
  unfold mergedRow applyLink
  split <;> rfl

lemma applyLink_idem (mainId now : Nat) (c : Contact) :
    applyLink mainId now (applyLink mainId now c) = applyLink mainId now c :=
  rfl

lemma oldestPrimary_of_min : ∀ (rest : List Contact) (acc : Contact),
    (∀ q ∈ rest, acc.createdAt ≤ q.createdAt) → oldestPrimary acc rest = acc := by
  intro rest
  induction rest with
  | nil => intro acc _; rfl
  | cons c t ih =>
      intro acc h
      simp only [oldestPrimary]
      rw [if_neg (by have := h c (List.mem_cons_self c t); omega)]
      exact ih acc (fun q hq => h q (List.mem_cons_of_mem _ hq))

lemma applyLink_id (mainId now : Nat) (c : Contact) :
    (applyLink mainId now c).id = c.id :=
  rfl

lemma updateContactLink_applyLink (st : Store) (cid mainId : Nat) :
    updateContactLink st cid (some mainId) Precedence.secondary =
      { st with contacts := st.contacts.map (fun c =>
          if c.id == cid then applyLink mainId st.now c else c) } :=
  rfl

lemma demoteOthers_eq (L : List Contact) (mainId : Nat) (st : Store) :
    demoteOthers L mainId st =
      { st with contacts := st.contacts.map (fun c =>
          if L.any (fun q => !(q.id == mainId) && q.id == c.id) then
            applyLink mainId st.now c
          else c) } := by
  induction L generalizing st with
  | nil => simp [demoteOthers]
  | cons q L ih =>
      have hstep : demoteOthers (q :: L) mainId st =
          demoteOthers L mainId (if (q.id == mainId) = true then st
            else updateContactLink st q.id (some mainId) Precedence.secondary) := by
        simp only [demoteOthers, List.foldl_cons]
      rw [hstep]
      cases hqm : (q.id == mainId) with
      | true =>
          rw [if_pos rfl, ih]
          congr 1
          apply List.map_congr_left
          intro c _
          simp [List.any_cons, hqm]
      | false =>
          rw [if_neg (by simp), updateContactLink_applyLink, ih]
          congr 1
          rw [List.map_map]
          apply List.map_congr_left
          intro c _
          simp only [Function.comp_apply]
          cases hcq : (c.id == q.id) with
          | true =>
              have hqc : (q.id == c.id) = true := by
                have h : c.id = q.id := by simpa using hcq
                simp [h]
              simp [hcq, hqc, List.any_cons, hqm, applyLink_id, applyLink_idem]
          | false =>
              have hqc : (q.id == c.id) = false := by
                rw [beq_eq_false_iff_ne]
                intro hh
                rw [hh] at hcq
                simp at hcq
              simp [hcq, hqc, List.any_cons, hqm]

lemma repointSecondaries_eq (L : List Contact) (mainId : Nat) (st : Store) :
    repointSecondaries L mainId st =
      { st with contacts := st.contacts.map (fun c =>
          if L.any (fun q => !(q.linkedId == some mainId) && q.id == c.id) then
            applyLink mainId st.now c
          else c) } := by
  induction L generalizing st with
  | nil => simp [repointSecondaries]
  | cons q L ih =>
      have hstep : repointSecondaries (q :: L) mainId st =
          repointSecondaries L mainId (if (q.linkedId == some mainId) = true then st
            else updateContactLink st q.id (some mainId) Precedence.secondary) := by
        simp only [repointSecondaries, List.foldl_cons]
      rw [hstep]
      cases hqm : (q.linkedId == some mainId) with
      | true =>
          rw [if_pos rfl, ih]
          congr 1
          apply List.map_congr_left
          intro c _
          simp [List.any_cons, hqm]
      | false =>
          rw [if_neg (by simp), updateContactLink_applyLink, ih]
          congr 1
          rw [List.map_map]
          apply List.map_congr_left
          intro c _
          simp only [Function.comp_apply]
          cases hcq : (c.id == q.id) with
          | true =>
              have hqc : (q.id == c.id) = true := by
                have h : c.id = q.id := by simpa using hcq
                simp [h]
              simp [hcq, hqc, List.any_cons, hqm, applyLink_id, applyLink_idem]
          | false =>
              have hqc : (q.id == c.id) = false := by
                rw [beq_eq_false_iff_ne]
                intro hh
                rw [hh] at hcq
                simp at hcq
              simp [hcq, hqc, List.any_cons, hqm]

lemma merge_st2_eq (prims secs : List Contact) (mainId : Nat) (st : Store) :
    repointSecondaries secs mainId (demoteOthers prims mainId st) =
      { st with contacts := st.contacts.map (mergedRow prims secs mainId st.now) } := by
  rw [demoteOthers_eq, repointSecondaries_eq]
  congr 1
  rw [List.map_map]
  apply List.map_congr_left
  intro c _
  simp only [Function.comp_apply]
  unfold mergedRow
  cases hA : (prims.any (fun q => !(q.id == mainId) && q.id == c.id)) with
  | true => simp [hA, applyLink_id, applyLink_idem]
  | false => simp [hA]

lemma analyze_cases_refined (ex : List Contact) (e p : Option String) :
    (∃ em pm, ex.find? (fun c => c.email == e) = some em ∧
        ex.find? (fun c => c.phoneNumber == p) = some pm ∧ (em.id == pm.id) = true ∧
        analyzeContacts ex e p = Plan.returnExisting (findPrimaryInChain em ex)) ∨
      analyzeContacts ex e p =
        analyzeRest (ex.filter (fun c => c.linkPrecedence == Precedence.primary))
          (ex.filter (fun c => c.linkPrecedence == Precedence.secondary)) ex e p := by
  rcases hem : ex.find? (fun c => c.email == e) with _ | em
  · right
    simp [analyzeContacts, hem]
  · rcases hpm : ex.find? (fun c => c.phoneNumber == p) with _ | pm
    · right
      simp [analyzeContacts, hem, hpm]
    · by_cases hid : (em.id == pm.id) = true
      · left
        exact ⟨em, pm, hem, hpm, hid, by simp [analyzeContacts, hem, hpm, hid]⟩
      · right
        simp [analyzeContacts, hem, hpm, hid]

lemma plan_merge_inv {ex : List Contact} {e p : Option String} {prims secs : List Contact}
    (h : analyzeContacts ex e p = Plan.mergePrimaries prims secs) :
    prims = ex.filter (fun c => c.linkPrecedence == Precedence.primary) ∧
      secs = ex.filter (fun c => c.linkPrecedence == Precedence.secondary) ∧
      2 ≤ prims.length := by
  have hrest : analyzeRest (ex.filter (fun c => c.linkPrecedence == Precedence.primary))
      (ex.filter (fun c => c.linkPrecedence == Precedence.secondary)) ex e p =
      Plan.mergePrimaries prims secs := by
    rcases analyze_plan_cases ex e p with ⟨pc, hpc⟩ | hra
    · rw [hpc] at h
      exact absurd h (by simp)
    · rw [hra] at h
      exact h
  cases hfp : ex.filter (fun c => c.linkPrecedence == Precedence.primary) with
  | nil =>
      rw [hfp] at hrest
      cases hfs : ex.filter (fun c => c.linkPrecedence == Precedence.secondary) with
      | nil =>
          rw [hfs] at hrest
          simp [analyzeRest] at hrest
      | cons s r =>
          rw [hfs] at hrest
          simp [analyzeRest] at hrest
  | cons p1 t =>
      cases t with
      | nil =>
          rw [hfp] at hrest
          simp [analyzeRest] at hrest
      | cons p2 r =>
          rw [hfp] at hrest
          simp only [analyzeRest] at hrest
          injection hrest with h1 h2
          refine ⟨?_, ?_, ?_⟩
          · rw [← h1]
          · rw [← h2]
          · rw [← h1]
            simp only [List.length_cons]
            omega

lemma analyze_merge (e p : Option String) (st : Store)
    (hids : (st.contacts.map (fun c => c.id)).Nodup)
    (hUV : UniqueValues st.contacts)
    (hlen : 1 < ((findContactsByEmailOrPhone st e p).filter
        (fun c => c.linkPrecedence == Precedence.primary)).length) :
    analyzeContacts (findContactsByEmailOrPhone st e p) e p =
      Plan.mergePrimaries
        ((findContactsByEmailOrPhone st e p).filter
          (fun c => c.linkPrecedence == Precedence.primary))
        ((findContactsByEmailOrPhone st e p).filter
          (fun c => c.linkPrecedence == Precedence.secondary)) := by
  rcases analyze_cases_refined (findContactsByEmailOrPhone st e p) e p with
    ⟨em, pm, hem, hpm, hid, _hplan⟩ | hrest
  · exfalso
    have hemex : em ∈ findContactsByEmailOrPhone st e p := List.mem_of_find?_eq_some hem
    have hpmex : pm ∈ findContactsByEmailOrPhone st e p := List.mem_of_find?_eq_some hpm
    have heme' : em.email = e := by simpa using List.find?_some hem
    have hpmp' : pm.phoneNumber = p := by simpa using List.find?_some hpm
    obtain ⟨hemst, -, -⟩ := mem_findContacts.mp hemex
    obtain ⟨hpmst, -, -⟩ := mem_findContacts.mp hpmex
    have hempm : em = pm := row_eq_of_id_eq hids hemst hpmst (by simpa using hid)
    have hnd : ((findContactsByEmailOrPhone st e p).filter
        (fun c => c.linkPrecedence == Precedence.primary)).Nodup :=
      (nodup_findContacts hids e p).filter _
    have key : ∀ z ∈ (findContactsByEmailOrPhone st e p).filter
        (fun c => c.linkPrecedence == Precedence.primary), z = em := by
      intro z hz
      rw [List.mem_filter] at hz
      obtain ⟨hzex, -⟩ := hz
      obtain ⟨hzst, -, hzm⟩ := mem_findContacts.mp hzex
      unfold matchesQuery at hzm
      rw [Bool.or_eq_true] at hzm
      rcases hzm with h1 | h2
      · rw [Bool.and_eq_true] at h1
        obtain ⟨hte, hze⟩ := h1
        have hze' : z.email = e := by simpa using hze
        exact (hUV z hzst em hemst).1 (by rw [hze', heme']) (by rw [hze']; exact hte)
      · rw [Bool.and_eq_true] at h2
        obtain ⟨htp, hzp⟩ := h2
        have hzp' : z.phoneNumber = p := by simpa using hzp
        have hz2 : z = pm :=
          (hUV z hzst pm hpmst).2 (by rw [hzp', hpmp']) (by rw [hzp']; exact htp)
        rw [hz2]
        exact hempm.symm
    cases hp1 : (findContactsByEmailOrPhone st e p).filter
        (fun c => c.linkPrecedence == Precedence.primary) with
    | nil =>
        rw [hp1] at hlen
        simp at hlen
    | cons x t =>
        cases t with
        | nil =>
            rw [hp1] at hlen
            simp at hlen
        | cons y r =>
            rw [hp1] at hnd
            rcases List.nodup_cons.mp hnd with ⟨hxny, -⟩
            have hx : x ∈ (findContactsByEmailOrPhone st e p).filter
                (fun c => c.linkPrecedence == Precedence.primary) := by
              rw [hp1]
              exact List.mem_cons_self _ _
            have hy : y ∈ (findContactsByEmailOrPhone st e p).filter
                (fun c => c.linkPrecedence == Precedence.primary) := by
              rw [hp1]
              exact List.mem_cons_of_mem _ (List.mem_cons_self _ _)
            have hxy : x = y := (key x hx).trans (key y hy).symm
            exact hxny (by rw [hxy]; exact List.mem_cons_self _ _)
  · rw [hrest]
    cases hfp : (findContactsByEmailOrPhone st e p).filter
        (fun c => c.linkPrecedence == Precedence.primary) with
    | nil =>
        rw [hfp] at hlen
        simp at hlen
    | cons p1 t =>
        cases t with
        | nil =>
            rw [hfp] at hlen
            simp at hlen
        | cons p2 r =>
            simp only [analyzeRest]

lemma createContact_snd_contacts (A : Store) (x y : Option String) (l : Option Nat)
    (pr : Precedence) :
    (createContact A x y l pr).2.contacts = A.contacts ++ [(createContact A x y l pr).1] :=
  rfl

lemma createContact_fst_id (A : Store) (x y : Option String) (l : Option Nat)
    (pr : Precedence) :
    (createContact A x y l pr).1.id = A.nextId :=
  rfl

lemma merge_effects (e p : Option String) (st : Store) (prims secs : List Contact)
    (hids : (st.contacts.map (fun c => c.id)).Nodup)
    (hbound : ∀ c ∈ st.contacts, c.id < st.nextId)
    (hvp : truthy p = true → validPhone (p.getD "") = true)
    (hplan : analyzeContacts (findContactsByEmailOrPhone st e p) e p =
        Plan.mergePrimaries prims secs) :
    ∃ main,
      main ∈ prims ∧
      main ∈ st.contacts ∧
      main.linkPrecedence = Precedence.primary ∧
      (∀ q ∈ prims, main.createdAt < q.createdAt ∨
          (main.createdAt = q.createdAt ∧ main.id ≤ q.id)) ∧
      main ∈ (identifyContact e p st).2.contacts ∧
      (∀ c ∈ (identifyContact e p st).2.contacts, c.id = main.id → c = main) ∧
      (∀ q ∈ prims, q.id ≠ main.id →
          applyLink main.id st.now q ∈ (identifyContact e p st).2.contacts ∧
          ∀ c ∈ (identifyContact e p st).2.contacts, c.id = q.id →
            c = applyLink main.id st.now q) ∧
      (∀ s2 ∈ secs, s2.linkedId = some main.id →
          s2 ∈ (identifyContact e p st).2.contacts) ∧
      (∀ s2 ∈ secs, s2.linkedId ≠ some main.id →
          applyLink main.id st.now s2 ∈ (identifyContact e p st).2.contacts ∧
          ∀ c ∈ (identifyContact e p st).2.contacts, c.id = s2.id →
            c = applyLink main.id st.now s2) ∧
      (∀ c ∈ st.contacts, (∀ q ∈ prims, q.id ≠ c.id) → (∀ s2 ∈ secs, s2.id ≠ c.id) →
          c ∈ (identifyContact e p st).2.contacts) := by
  obtain ⟨hpe, hse, hlen2⟩ := plan_merge_inv hplan
  have hprimsub : ∀ q ∈ prims, q ∈ st.contacts ∧ q.linkPrecedence = Precedence.primary := by
    intro q hq
    rw [hpe, List.mem_filter] at hq
    obtain ⟨hqex, hqp⟩ := hq
    exact ⟨(mem_findContacts.mp hqex).1, by simpa using hqp⟩
  have hsecsub : ∀ s2 ∈ secs, s2 ∈ st.contacts ∧ s2.linkPrecedence = Precedence.secondary := by
    intro s2 hs2
    rw [hse, List.mem_filter] at hs2
    obtain ⟨hqex, hqp⟩ := hs2
    exact ⟨(mem_findContacts.mp hqex).1, by simpa using hqp⟩
  obtain ⟨first, rest, hps⟩ : ∃ a b, prims = a :: b := by
    cases hp2 : prims with
    | nil =>
        rw [hp2] at hlen2
        simp at hlen2
    | cons a b => exact ⟨a, b, rfl⟩
  have hfirstmem : first ∈ prims := by
    rw [hps]
    exact List.mem_cons_self _ _
  have hfirstst : first ∈ st.contacts := (hprimsub first hfirstmem).1
  have hfirstprim : first.linkPrecedence = Precedence.primary :=
    (hprimsub first hfirstmem).2
  have hsorted : List.Sorted rCreated prims := by
    rw [hpe]
    exact List.Pairwise.filter _ (sorted_findContacts st e p)
  have hmin : ∀ q ∈ rest, first.createdAt ≤ q.createdAt := by
    intro q hq
    have hrel : rCreated first q := List.rel_of_sorted_cons (hps ▸ hsorted) q hq
    rcases hrel with h | ⟨h, -⟩
    · omega
    · omega
  have hmainfirst : oldestPrimary first rest = first := oldestPrimary_of_min rest first hmin
  have hargmin : ∀ q ∈ prims, first.createdAt < q.createdAt ∨
      (first.createdAt = q.createdAt ∧ first.id ≤ q.id) := by
    intro q hq
    rw [hps] at hq
    rcases List.mem_cons.mp hq with rfl | hq2
    · exact Or.inr ⟨rfl, Nat.le_refl _⟩
    · exact List.rel_of_sorted_cons (hps ▸ hsorted) q hq2
  have hne : findContactsByEmailOrPhone st e p ≠ [] := by
    intro hnil
    rw [hnil] at hpe
    simp at hpe
    rw [hps] at hpe
    cases hpe
  have hiden : identifyContact e p st = mergePrimaryContacts prims secs e p st := by
    rw [identify_eq_exec e p st hvp hne, hplan]
    rfl
  have hstore : ∃ tail, (identifyContact e p st).2.contacts =
      st.contacts.map (mergedRow prims secs first.id st.now) ++ tail ∧
      ∀ c ∈ tail, c.id = st.nextId := by
    rw [hiden, hps]
    simp only [mergePrimaryContacts]
    rw [hmainfirst, merge_st2_eq]
    split
    · refine ⟨_, createContact_snd_contacts _ _ _ _ _, ?_⟩
      intro c hc
      rw [List.mem_singleton.mp hc, createContact_fst_id]
    · exact ⟨[], (List.append_nil _).symm, by intro c hc; cases hc⟩
  obtain ⟨tail, htl, htlid⟩ := hstore
  have hrowmain : mergedRow prims secs first.id st.now first = first := by
    unfold mergedRow
    have hA : prims.any (fun q => !(q.id == first.id) && q.id == first.id) = false := by
      rw [List.any_eq_false]
      intro q hq hcon
      rw [Bool.and_eq_true] at hcon
      obtain ⟨b1, b2⟩ := hcon
      rw [b2] at b1
      cases b1
    have hB : secs.any
        (fun q => !(q.linkedId == some first.id) && q.id == first.id) = false := by
      rw [List.any_eq_false]
      intro q hq hcon
      rw [Bool.and_eq_true] at hcon
      obtain ⟨b1, b2⟩ := hcon
      have hqf : q = first := row_eq_of_id_eq hids (hsecsub q hq).1 hfirstst
        (by simpa using b2)
      have := (hsecsub q hq).2
      rw [hqf, hfirstprim] at this
      cases this
    rw [hA, hB]
    rfl
  have hmainmem : first ∈ (identifyContact e p st).2.contacts := by
    rw [htl]
    exact List.mem_append_left _ (List.mem_map.mpr ⟨first, hfirstst, hrowmain⟩)
  have hmainuniq : ∀ c ∈ (identifyContact e p st).2.contacts,
      c.id = first.id → c = first := by
    intro c hc hcid
    rw [htl] at hc
    rcases List.mem_append.mp hc with hmap | htail
    · obtain ⟨c0, hc0, hc0e⟩ := List.mem_map.mp hmap
      have hc0id : c0.id = first.id := by
        rw [← hcid, ← hc0e, mergedRow_id]
      have hc0f : c0 = first := row_eq_of_id_eq hids hc0 hfirstst hc0id
      rw [← hc0e, hc0f, hrowmain]
    · have h1 := htlid c htail
      have h2 := hbound first hfirstst
      omega
  refine ⟨first, hfirstmem, hfirstst, hfirstprim, hargmin, hmainmem, hmainuniq,
    ?_, ?_, ?_, ?_⟩
  · intro q hq hqne
    have hqst := (hprimsub q hq).1
    have hrowq : mergedRow prims secs first.id st.now q =
        applyLink first.id st.now q := by
      unfold mergedRow
      have hA : prims.any (fun q2 => !(q2.id == first.id) && q2.id == q.id) = true := by
        rw [List.any_eq_true]
        refine ⟨q, hq, ?_⟩
        have h1 : (q.id == first.id) = false := beq_eq_false_iff_ne.mpr hqne
        simp [h1]
      rw [hA]
      rfl
    constructor
    · rw [htl]
      exact List.mem_append_left _ (List.mem_map.mpr ⟨q, hqst, hrowq⟩)
    · intro c hc hcid
      rw [htl] at hc
      rcases List.mem_append.mp hc with hmap | htail
      · obtain ⟨c0, hc0, hc0e⟩ := List.mem_map.mp hmap
        have hc0id : c0.id = q.id := by
          rw [← hcid, ← hc0e, mergedRow_id]
        have hc0q : c0 = q := row_eq_of_id_eq hids hc0 hqst hc0id
        rw [← hc0e, hc0q, hrowq]
      · have h1 := htlid c htail
        have h2 := hbound q hqst
        omega
  · intro s2 hs2 hl2
    have hs2st := (hsecsub s2 hs2).1
    have hrows : mergedRow prims secs first.id st.now s2 = s2 := by
      unfold mergedRow
      have hA : prims.any (fun q2 => !(q2.id == first.id) && q2.id == s2.id) = false := by
        rw [List.any_eq_false]
        intro q hq hcon
        rw [Bool.and_eq_true] at hcon
        obtain ⟨-, b2⟩ := hcon
        have hqs : q = s2 := row_eq_of_id_eq hids (hprimsub q hq).1 hs2st
          (by simpa using b2)
        have h1 := (hprimsub q hq).2
        have h2 := (hsecsub s2 hs2).2
        rw [hqs, h2] at h1
        cases h1
      have hB : secs.any
          (fun q2 => !(q2.linkedId == some first.id) && q2.id == s2.id) = false := by
        rw [List.any_eq_false]
        intro q hq hcon
        rw [Bool.and_eq_true] at hcon
        obtain ⟨b1, b2⟩ := hcon
        have hqs : q = s2 := row_eq_of_id_eq hids (hsecsub q hq).1 hs2st
          (by simpa using b2)
        rw [hqs, hl2] at b1
        simp at b1
      rw [hA, hB]
      rfl
    rw [htl]
    exact List.mem_append_left _ (List.mem_map.mpr ⟨s2, hs2st, hrows⟩)
  · intro s2 hs2 hl2
    have hs2st := (hsecsub s2 hs2).1
    have hrows : mergedRow prims secs first.id st.now s2 =
        applyLink first.id st.now s2 := by
      unfold mergedRow
      have hB : secs.any
          (fun q2 => !(q2.linkedId == some first.id) && q2.id == s2.id) = true := by
        rw [List.any_eq_true]
        refine ⟨s2, hs2, ?_⟩
        have h1 : (s2.linkedId == some first.id) = false := by
          rw [beq_eq_false_iff_ne]
          exact hl2
        simp [h1]
      rw [hB]
      simp
    constructor
    · rw [htl]
      exact List.mem_append_left _ (List.mem_map.mpr ⟨s2, hs2st, hrows⟩)
    · intro c hc hcid
      rw [htl] at hc
      rcases List.mem_append.mp hc with hmap | htail
      · obtain ⟨c0, hc0, hc0e⟩ := List.mem_map.mp hmap
        have hc0id : c0.id = s2.id := by
          rw [← hcid, ← hc0e, mergedRow_id]
        have hc0q : c0 = s2 := row_eq_of_id_eq hids hc0 hs2st hc0id
        rw [← hc0e, hc0q, hrows]
      · have h1 := htlid c htail
        have h2 := hbound s2 hs2st
        omega
  · intro c hc hnoq hnos
    have hrowc : mergedRow prims secs first.id st.now c = c := by
      unfold mergedRow
      have hA : prims.any (fun q2 => !(q2.id == first.id) && q2.id == c.id) = false := by
        rw [List.any_eq_false]
        intro q hq hcon
        rw [Bool.and_eq_true] at hcon
        obtain ⟨-, b2⟩ := hcon
        exact hnoq q hq (by simpa using b2)
      have hB : secs.any
          (fun q2 => !(q2.linkedId == some first.id) && q2.id == c.id) = false := by
        rw [List.any_eq_false]
        intro q hq hcon
        rw [Bool.and_eq_true] at hcon
        obtain ⟨-, b2⟩ := hcon
        exact hnos q hq (by simpa using b2)
      rw [hA, hB]
      rfl
    rw [htl]
    exact List.mem_append_left _ (List.mem_map.mpr ⟨c, hc, hrowc⟩)

/-- C1: whenever the match set holds more than one primary (stores reachable
by the code keep each non-empty email/phone value in at most one row, and
row ids unique and below the id counter), `identify` runs the merge and the
retained primary is the matched primary with the earliest `createdAt`, ties
broken by lowest id — an order-free characterization, so the same contact is
retained regardless of the order in which the collision was discovered; its
row survives unchanged and still primary, and every other colliding primary's
row is rewritten to `precedence = secondary` with `linkedId` equal to the
retained primary's id. -/
theorem merge_retains_most_senior_primary (email phoneNumber : Option String) (st : Store)
    (hWF : WFStore st) (hUV : UniqueValues st.contacts)
    (hvp : truthy phoneNumber = true → validPhone (phoneNumber.getD "") = true)
    (hlen : 1 < ((findContactsByEmailOrPhone st email phoneNumber).filter
        (fun c => c.linkPrecedence == Precedence.primary)).length) :
    ∃ main ∈ (findContactsByEmailOrPhone st email phoneNumber).filter
        (fun c => c.linkPrecedence == Precedence.primary),
      main.linkPrecedence = Precedence.primary ∧
      (∀ q ∈ (findContactsByEmailOrPhone st email phoneNumber).filter
          (fun c => c.linkPrecedence == Precedence.primary),
        main.createdAt < q.createdAt ∨ (main.createdAt = q.createdAt ∧ main.id ≤ q.id)) ∧
      main ∈ (identifyContact email phoneNumber st).2.contacts ∧
      (∀ c ∈ (identifyContact email phoneNumber st).2.contacts, c.id = main.id → c = main) ∧
      (∀ q ∈ (findContactsByEmailOrPhone st email phoneNumber).filter
          (fun c => c.linkPrecedence == Precedence.primary), q.id ≠ main.id →
        applyLink main.id st.now q ∈ (identifyContact email phoneNumber st).2.contacts ∧
        ∀ c ∈ (identifyContact email phoneNumber st).2.contacts, c.id = q.id →
          c = applyLink main.id st.now q) := by
  obtain ⟨hids, hbound, -⟩ := hWF
  have hplan := analyze_merge email phoneNumber st hids hUV hlen
  obtain ⟨main, h1, h2, h3, h4, h5, h6, h7, -, -, -⟩ :=
    merge_effects email phoneNumber st _ _ hids hbound hvp hplan
  exact ⟨main, h1, h3, h4, h5, h6, h7⟩

/-- Witness for C1: primaries 1 (older) and 2 (newer) collide on the
observation `("w1@x.com","5555555555")`; contact 1 is retained and contact 2
demoted under it. -/
theorem merge_retains_most_senior_primary_witness :
    ∃ main ∈ (findContactsByEmailOrPhone stC1 (some "w1@x.com") (some "5555555555")).filter
        (fun c => c.linkPrecedence == Precedence.primary),
      main.linkPrecedence = Precedence.primary ∧
      (∀ q ∈ (findContactsByEmailOrPhone stC1 (some "w1@x.com") (some "5555555555")).filter
          (fun c => c.linkPrecedence == Precedence.primary),
        main.createdAt < q.createdAt ∨ (main.createdAt = q.createdAt ∧ main.id ≤ q.id)) ∧
      main ∈ (identifyContact (some "w1@x.com") (some "5555555555") stC1).2.contacts ∧
      (∀ c ∈ (identifyContact (some "w1@x.com") (some "5555555555") stC1).2.contacts,
        c.id = main.id → c = main) ∧
      (∀ q ∈ (findContactsByEmailOrPhone stC1 (some "w1@x.com") (some "5555555555")).filter
          (fun c => c.linkPrecedence == Precedence.primary), q.id ≠ main.id →
        applyLink main.id stC1.now q ∈
          (identifyContact (some "w1@x.com") (some "5555555555") stC1).2.contacts ∧
        ∀ c ∈ (identifyContact (some "w1@x.com") (some "5555555555") stC1).2.contacts,
          c.id = q.id → c = applyLink main.id stC1.now q) :=
  merge_retains_most_senior_primary (some "w1@x.com") (some "5555555555") stC1
    (by decide) (by decide) (by decide) (by decide)

/-- C10: in every run that takes the merge branch, the retained primary's
row is never written (its record, timestamps included, survives verbatim),
matched secondaries already pointing at the retained primary are not
written, rows outside the matched sets are not written, and only the other
colliding primaries and the matched secondaries pointing elsewhere receive
the update. -/
theorem merge_writes_only_demoted_and_repointed (email phoneNumber : Option String)
    (st : Store) (prims secs : List Contact)
    (hWF : WFStore st)
    (hvp : truthy phoneNumber = true → validPhone (phoneNumber.getD "") = true)
    (hplan : analyzeContacts (findContactsByEmailOrPhone st email phoneNumber)
        email phoneNumber = Plan.mergePrimaries prims secs) :
    ∃ main ∈ prims,
      (∀ q ∈ prims, main.createdAt < q.createdAt ∨
          (main.createdAt = q.createdAt ∧ main.id ≤ q.id)) ∧
      (∀ c ∈ st.contacts, c.id = main.id →
          c ∈ (identifyContact email phoneNumber st).2.contacts) ∧
      (∀ s2 ∈ secs, s2.linkedId = some main.id →
          s2 ∈ (identifyContact email phoneNumber st).2.contacts) ∧
      (∀ c ∈ st.contacts, (∀ q ∈ prims, q.id ≠ c.id) → (∀ s2 ∈ secs, s2.id ≠ c.id) →
          c ∈ (identifyContact email phoneNumber st).2.contacts) ∧
      (∀ q ∈ prims, q.id ≠ main.id →
          applyLink main.id st.now q ∈ (identifyContact email phoneNumber st).2.contacts) ∧
      (∀ s2 ∈ secs, s2.linkedId ≠ some main.id →
          applyLink main.id st.now s2 ∈ (identifyContact email phoneNumber st).2.contacts) := by
  obtain ⟨hids, hbound, -⟩ := hWF
  obtain ⟨main, h1, h2, h3, h4, h5, h6, h7, h8, h9, h10⟩ :=
    merge_effects email phoneNumber st prims secs hids hbound hvp hplan
  refine ⟨main, h1, h4, ?_, h8, h10, fun q hq hne => (h7 q hq hne).1,
    fun s2 hs2 hne => (h9 s2 hs2 hne).1⟩
  intro c hc hcid
  have hcm : c = main := row_eq_of_id_eq hids hc h2 hcid
  rw [hcm]
  exact h5

/-- Witness for C10: merging primaries 1 and 2 with matched secondaries 3
(pointing at 2, hence repointed) and 4 (already pointing at 1, untouched). -/
theorem merge_writes_only_demoted_and_repointed_witness :
    ∃ main ∈ [wP1, wP2],
      (∀ q ∈ [wP1, wP2], main.createdAt < q.createdAt ∨
          (main.createdAt = q.createdAt ∧ main.id ≤ q.id)) ∧
      (∀ c ∈ stC10.contacts, c.id = main.id →
          c ∈ (identifyContact (some "w1@x.com") (some "5555555555") stC10).2.contacts) ∧
      (∀ s2 ∈ [wS3, wS4], s2.linkedId = some main.id →
          s2 ∈ (identifyContact (some "w1@x.com") (some "5555555555") stC10).2.contacts) ∧
      (∀ c ∈ stC10.contacts, (∀ q ∈ [wP1, wP2], q.id ≠ c.id) →
          (∀ s2 ∈ [wS3, wS4], s2.id ≠ c.id) →
          c ∈ (identifyContact (some "w1@x.com") (some "5555555555") stC10).2.contacts) ∧
      (∀ q ∈ [wP1, wP2], q.id ≠ main.id →
          applyLink main.id stC10.now q ∈
            (identifyContact (some "w1@x.com") (some "5555555555") stC10).2.contacts) ∧
      (∀ s2 ∈ [wS3, wS4], s2.linkedId ≠ some main.id →
          applyLink main.id stC10.now s2 ∈
            (identifyContact (some "w1@x.com") (some "5555555555") stC10).2.contacts) :=
  merge_writes_only_demoted_and_repointed (some "w1@x.com") (some "5555555555") stC10
    [wP1, wP2] [wS3, wS4] (by decide) (by decide) (by decide)

end IdentityRecon
